import Mathlib

/-!
# Verification of `scripts/sentinel2_burn_severity_heatmap.js`

A shallow embedding of the burn-severity evaluation script. Band reflectance
values and all intermediate index arithmetic are modelled over `ℝ` (the script
computes with JS numbers); SCL codes and timestamps are integers. JS `Date`
values are modelled by their epoch-millisecond timestamps, so `fromDate` is
`Date("2025-01-01")` = 1735689600000 and `toDate` is `Date("2025-01-13")` =
1736726400000. The in-place mutation performed by `preProcessScenes` on its
`collections` argument is made explicit by returning the post-call state of
the argument alongside the function's return value; the JS return value `[]`
(the empty "insufficient data" result) is modelled as `none`. `Array.sort`
with the ascending `dateFrom` comparator is modelled by the stable
`List.insertionSort` (ECMAScript sorts are stable, and the comparator is a
total preorder, so the result is uniquely determined).

One deliberate divergence from JS float semantics: division here is total
(`x / 0 = 0`), while JS produces `NaN`/`±Infinity` on the zero-denominator
paths of `calculateNBR`/`calculateRBR` — the unguarded degenerate-arithmetic
path the spec leaves open. Theorems touching that path account for this
explicitly (`C6_failing_input`); no range or classification theorem below is
allowed to rely silently on the junk value.
-/

namespace BurnSeverity

/-- A per-pixel, per-scene sample as consumed by `evaluatePixel`: the bands
declared in `setup()` are `B08` (NIR), `B12` (SWIR), `SCL` and `dataMask`. -/
structure Sample where
  B08 : ℝ
  B12 : ℝ
  SCL : ℤ
  dataMask : ℝ

/-- One scene/orbit record of the catalog, with its acquisition time range
(epoch milliseconds). -/
structure Orbit where
  dateFrom : ℤ
  dateTo : ℤ
  deriving DecidableEq

/-- The `collections.scenes` object. -/
structure Scenes where
  orbits : List Orbit
  deriving DecidableEq

/-- The `collections` object passed to `preProcessScenes`. -/
structure Collections where
  scenes : Scenes
  deriving DecidableEq

/-- `var fromDate = new Date("2025-01-01")`, as epoch milliseconds. -/
def fromDate : ℤ := 1735689600000

/-- `var toDate = new Date("2025-01-13")`, as epoch milliseconds. -/
def toDate : ℤ := 1736726400000

/-- `const excludedClasses = [0, 1, 3, 6, 7, 8, 9, 10, 11]`. -/
def excludedClasses : List ℤ := [0, 1, 3, 6, 7, 8, 9, 10, 11]

/-- One row of the `thresholds` table. The `max` field is an extended real
because the last row of the source table has `max: Infinity`. -/
structure Threshold where
  max : EReal
  alpha : ℝ
  label : String

/-- The `thresholds` table of the script. -/
noncomputable def thresholds : List Threshold :=
  [⟨((0.1 : ℝ) : EReal), 0.0, "Unburnt"⟩,
   ⟨((0.27 : ℝ) : EReal), 0.3, "Low severity"⟩,
   ⟨((0.44 : ℝ) : EReal), 0.5, "Moderate severity"⟩,
   ⟨((0.66 : ℝ) : EReal), 0.7, "Moderate-high severity"⟩,
   ⟨(⊤ : EReal), 1.0, "High severity"⟩]

/-- `calculateNBR(NIR, SWIR) = (NIR - SWIR) / (NIR + SWIR)`. Caveat: Lean's
division is total (`x / 0 = 0`), whereas the JS expression yields `NaN` (for
`0/0`) or `±Infinity` when `NIR + SWIR = 0`; conclusions drawn on that
degenerate path from this model alone are unsound (see `C6_failing_input`). -/
noncomputable def calculateNBR (NIR SWIR : ℝ) : ℝ :=
  (NIR - SWIR) / (NIR + SWIR)

/-- `calculateRBR(dNBR, preFireNBR) = dNBR / Math.sqrt(Math.abs(preFireNBR))`.
Same caveat as `calculateNBR`: at `preFireNBR = 0` the JS expression yields
`NaN`/`±Infinity` while this model returns the junk value 0. -/
noncomputable def calculateRBR (dNBR preFireNBR : ℝ) : ℝ :=
  dNBR / Real.sqrt |preFireNBR|

/-- The set of indices `j` visited with a kept bounds check by the inner loop
of `smoothData` for output position `i`: `i - floor(w/2) ≤ j ≤ i + floor(w/2)`
and `0 ≤ j < len` (in `ℕ`, `i - h ≤ j` is rendered as `i ≤ j + h`). -/
def windowIndices (len i h : ℕ) : List ℕ :=
  (List.range len).filter fun j => decide (i ≤ j + h ∧ j ≤ i + h)

/-- `smoothData(dataset, windowSize)`: for each `i`, the arithmetic mean of
the in-bounds neighbours within `± floor(windowSize/2)` of `i`. -/
noncomputable def smoothData (dataset : List ℝ) (windowSize : ℕ) : List ℝ :=
  (List.range dataset.length).map fun i =>
    let idxs := windowIndices dataset.length i (windowSize / 2)
    ((idxs.map fun j => dataset.getD j 0).sum) / (idxs.length : ℝ)

/-- The comparator `(a, b) => new Date(a.dateFrom) - new Date(b.dateFrom)`
used by `Array.sort`, as the total preorder it induces. -/
def orbitLE (a b : Orbit) : Prop := a.dateFrom ≤ b.dateFrom

instance : DecidableRel orbitLE := fun a b => Int.decLe a.dateFrom b.dateFrom

instance : IsTotal Orbit orbitLE := ⟨fun a b => le_total a.dateFrom b.dateFrom⟩

instance : IsTrans Orbit orbitLE := ⟨fun _ _ _ h h' => le_trans h h'⟩

/-- The filter step of `preProcessScenes`: retain exactly the orbits with
`dateFrom >= fromDate` and `dateTo <= toDate`. -/
def retainedScenes (c : Collections) : List Orbit :=
  c.scenes.orbits.filter fun orbit =>
    decide (fromDate ≤ orbit.dateFrom ∧ orbit.dateTo ≤ toDate)

/-- `preProcessScenes(collections)`: filter, sort ascending by `dateFrom`,
then either keep exactly the earliest and latest scene (when at least two
remain) or return the empty result. The first component is the JS return
value (`none` for the empty "insufficient data" array); the second component
is the state of the caller's `collections` object after the call, since the
function assigns to `collections.scenes.orbits` in place. On the success path
the function returns the very object it mutated. -/
def preProcessScenes (c : Collections) : Option Collections × Collections :=
  let sorted := List.insertionSort orbitLE (retainedScenes c)
  if h : 2 ≤ sorted.length then
    have hne : sorted ≠ [] := List.ne_nil_of_length_pos (by omega)
    let final : Collections := ⟨⟨[sorted.head hne, sorted.getLast hne]⟩⟩
    (some final, final)
  else
    (none, ⟨⟨sorted⟩⟩)

/-- The input/output declaration returned by `setup()` (bands, units, output
band count, mosaicking mode). -/
def setup : List String × List String × ℕ × String :=
  (["B08", "B12", "SCL", "dataMask"],
   ["REFLECTANCE", "REFLECTANCE", "DN", "DN"],
   4, "ORBIT")

/-- `getHeatmapColor(RBR)`: clamped rounded red/green channels, blue 0. -/
noncomputable def getHeatmapColor (RBR : ℝ) : ℤ × ℤ × ℤ :=
  (min 255 (max 0 (round (RBR * 255))),
   min 255 (max 0 (round ((1 - RBR) * 255))),
   0)

/-- `adjustTransparency(alpha) = Math.pow(alpha, 2)`. -/
noncomputable def adjustTransparency (alpha : ℝ) : ℝ :=
  alpha ^ 2

/-- The `thresholds.some(...)` loop of `evaluatePixel`: `alpha` starts at
`0.0` and the scan stops at the first row with `RBR <= threshold.max`. -/
noncomputable def severityAlpha (RBR : ℝ) : List Threshold → ℝ
  | [] => 0.0
  | t :: rest => if (RBR : EReal) ≤ t.max then t.alpha else severityAlpha RBR rest

/-- `evaluatePixel(samples)`. The 2-sample requirement is the pattern match
(`samples.length !== 2` returns transparent black); output is `(red, green,
blue, alpha)` with integer colors and real alpha. -/
noncomputable def evaluatePixel (samples : List Sample) : ℤ × ℤ × ℤ × ℝ :=
  match samples with
  | [firstSample, lastSample] =>
    if excludedClasses.contains firstSample.SCL
        || excludedClasses.contains lastSample.SCL then
      (0, 0, 0, 0)
    else
      let rawNBRPreFire := calculateNBR firstSample.B08 firstSample.B12
      let rawNBRPostFire := calculateNBR lastSample.B08 lastSample.B12
      let smoothedPreFire := smoothData [rawNBRPreFire] 3
      let smoothedPostFire := smoothData [rawNBRPostFire] 3
      let firstNBR := smoothedPreFire.getD 0 0
      let lastNBR := smoothedPostFire.getD 0 0
      let dNBR := firstNBR - lastNBR
      let RBR := calculateRBR dNBR firstNBR
      let rgbColor := getHeatmapColor RBR
      let alpha := severityAlpha RBR thresholds
      (rgbColor.1, rgbColor.2.1, rgbColor.2.2, adjustTransparency alpha)
  | _ => (0, 0, 0, 0)

/-- The color/alpha tail of `evaluatePixel` (steps after the relativized
index is fixed), as a function of that index. Used to state which relativized
index value the pipeline feeds downstream. -/
noncomputable def outputForRBR (RBR : ℝ) : ℤ × ℤ × ℤ × ℝ :=
  let rgbColor := getHeatmapColor RBR
  (rgbColor.1, rgbColor.2.1, rgbColor.2.2,
   adjustTransparency (severityAlpha RBR thresholds))

/-- Follows the spec's words for the Relativizer call site (claim C3): the
delta is the post-minus-pre index difference and the baseline is the
pre-event index, giving `(postIndex - preIndex) / sqrt |preIndex|`. -/
noncomputable def specRelativized (pre post : Sample) : ℝ :=
  calculateRBR (calculateNBR post.B08 post.B12 - calculateNBR pre.B08 pre.B12)
    (calculateNBR pre.B08 pre.B12)

/-- The observable part of a sample actually read by `evaluatePixel`
(everything except `dataMask`). -/
def sampleObs (s : Sample) : ℝ × ℝ × ℤ := (s.B08, s.B12, s.SCL)

/-! ## Helper lemmas -/

theorem smoothData_singleton (x : ℝ) (w : ℕ) : smoothData [x] w = [x] := by
  have hr : List.range 1 = [0] := rfl
  have h : windowIndices 1 0 (w / 2) = [0] := by
    simp [windowIndices, hr, Nat.zero_le]
  simp [smoothData, h, hr]

theorem severityAlpha_thresholds (RBR : ℝ) :
    severityAlpha RBR thresholds =
      if RBR ≤ 0.1 then 0.0
      else if RBR ≤ 0.27 then 0.3
      else if RBR ≤ 0.44 then 0.5
      else if RBR ≤ 0.66 then 0.7
      else 1.0 := by
  simp only [thresholds, severityAlpha, EReal.coe_le_coe_iff, le_top, if_true]

theorem severityAlpha_mem (RBR : ℝ) :
    0 ≤ severityAlpha RBR thresholds ∧ severityAlpha RBR thresholds ≤ 1 := by
  rw [severityAlpha_thresholds]
  split_ifs <;> norm_num

theorem severityAlpha_of_one_lt {RBR : ℝ} (h : 1 < RBR) :
    severityAlpha RBR thresholds = 1 := by
  rw [severityAlpha_thresholds]
  split_ifs with h1 h2 h3 h4
  · norm_num at h1; linarith
  · norm_num at h2; linarith
  · norm_num at h3; linarith
  · norm_num at h4; linarith
  · norm_num

theorem clamp_round_eq_255 {x : ℝ} (h : 255 ≤ x) :
    min 255 (max 0 (round x)) = 255 := by
  have h1 : (255 : ℤ) ≤ round x := by
    rw [round_eq]
    exact Int.le_floor.mpr (by push_cast; linarith)
  omega

theorem clamp_round_eq_zero {x : ℝ} (h : x < 1 / 2) :
    min 255 (max 0 (round x)) = 0 := by
  have h1 : round x ≤ 0 := by
    rw [round_eq]
    have h2 : ⌊x + 1 / 2⌋ < 1 := Int.floor_lt.mpr (by push_cast; linarith)
    omega
  omega

theorem clamp_bounds (x : ℝ) :
    0 ≤ min 255 (max 0 (round x)) ∧ min 255 (max 0 (round x)) ≤ 255 := by
  omega

theorem evaluatePixel_of_length_ne_two {samples : List Sample}
    (h : samples.length ≠ 2) : evaluatePixel samples = (0, 0, 0, 0) := by
  match samples with
  | [] => rfl
  | [_] => rfl
  | [_, _] => simp at h
  | _ :: _ :: _ :: _ => rfl

theorem evaluatePixel_excluded {a b : Sample}
    (h : (excludedClasses.contains a.SCL || excludedClasses.contains b.SCL) = true) :
    evaluatePixel [a, b] = (0, 0, 0, 0) := by
  simp only [evaluatePixel, h, if_true]

theorem evaluatePixel_not_excluded {a b : Sample}
    (h : (excludedClasses.contains a.SCL || excludedClasses.contains b.SCL) = false) :
    evaluatePixel [a, b] =
      outputForRBR (calculateRBR
        (calculateNBR a.B08 a.B12 - calculateNBR b.B08 b.B12)
        (calculateNBR a.B08 a.B12)) := by
  simp only [evaluatePixel, h, Bool.false_eq_true, if_false, smoothData_singleton,
    List.getD_cons_zero, outputForRBR]

theorem calculateNBR_pre : calculateNBR 0.5 0.1 = 2 / 3 := by
  unfold calculateNBR; norm_num

theorem calculateNBR_post : calculateNBR 0.2 0.3 = -0.2 := by
  unfold calculateNBR; norm_num

theorem exampleRBR_eq :
    calculateRBR (13 / 15) (2 / 3) = 13 / 15 / Real.sqrt (2 / 3) := by
  unfold calculateRBR
  rw [abs_of_pos (by norm_num : (0 : ℝ) < 2 / 3)]

theorem sqrt_two_thirds_pos : 0 < Real.sqrt (2 / 3) :=
  Real.sqrt_pos.mpr (by norm_num)

theorem exampleRBR_bounds :
    1.06 < calculateRBR (13 / 15) (2 / 3) ∧ calculateRBR (13 / 15) (2 / 3) < 1.063 := by
  rw [exampleRBR_eq]
  have hs := sqrt_two_thirds_pos
  have hlow : Real.sqrt (2 / 3) < 0.8166 :=
    (Real.sqrt_lt' (by norm_num)).mpr (by norm_num)
  have hhigh : (0.8164 : ℝ) < Real.sqrt (2 / 3) :=
    (Real.lt_sqrt (by norm_num)).mpr (by norm_num)
  constructor
  · rw [lt_div_iff₀ hs]; nlinarith
  · rw [div_lt_iff₀ hs]; nlinarith

theorem exampleRBR_gt_one : 1 < calculateRBR (13 / 15) (2 / 3) := by
  have h := exampleRBR_bounds.1
  linarith

theorem examplePixel_eq :
    evaluatePixel [⟨0.5, 0.1, 4, 1⟩, ⟨0.2, 0.3, 5, 1⟩] = (255, 0, 0, 1) := by
  rw [evaluatePixel_not_excluded (by decide)]
  show outputForRBR (calculateRBR (calculateNBR 0.5 0.1 - calculateNBR 0.2 0.3)
    (calculateNBR 0.5 0.1)) = (255, 0, 0, 1)
  rw [calculateNBR_pre, calculateNBR_post,
    show (2 : ℝ) / 3 - -0.2 = 13 / 15 by norm_num]
  have h1 := exampleRBR_gt_one
  unfold outputForRBR getHeatmapColor
  rw [clamp_round_eq_255 (by nlinarith), clamp_round_eq_zero (by nlinarith),
    severityAlpha_of_one_lt h1]
  unfold adjustTransparency
  norm_num

theorem outputForRBR_ranges (R : ℝ) :
    0 ≤ (outputForRBR R).1 ∧ (outputForRBR R).1 ≤ 255 ∧
    0 ≤ (outputForRBR R).2.1 ∧ (outputForRBR R).2.1 ≤ 255 ∧
    0 ≤ (outputForRBR R).2.2.1 ∧ (outputForRBR R).2.2.1 ≤ 255 ∧
    0 ≤ (outputForRBR R).2.2.2 ∧ (outputForRBR R).2.2.2 ≤ 1 := by
  obtain ⟨h0, h1⟩ := severityAlpha_mem R
  simp only [outputForRBR, getHeatmapColor, adjustTransparency]
  exact ⟨(clamp_bounds _).1, (clamp_bounds _).2, (clamp_bounds _).1, (clamp_bounds _).2,
    le_refl 0, by norm_num, sq_nonneg _, pow_le_one₀ h0 h1⟩

theorem severityAlpha_of_no_match (RBR : ℝ) :
    ∀ l : List Threshold, (∀ t ∈ l, ¬((RBR : EReal) ≤ t.max)) →
      severityAlpha RBR l = 0
  | [] => fun _ => by norm_num [severityAlpha]
  | t :: rest => fun h => by
    rw [severityAlpha, if_neg (h t (List.mem_cons_self t rest))]
    exact severityAlpha_of_no_match RBR rest fun t' ht' => h t' (List.mem_cons_of_mem _ ht')

theorem severityAlpha_first_match (RBR : ℝ) :
    ∃ i : Fin thresholds.length,
      ((RBR : EReal) ≤ (thresholds.get i).max) ∧
      (∀ j : Fin thresholds.length, j < i → ¬((RBR : EReal) ≤ (thresholds.get j).max)) ∧
      severityAlpha RBR thresholds = (thresholds.get i).alpha := by
  have hlen : thresholds.length = 5 := rfl
  by_cases h1 : RBR ≤ 0.1
  · refine ⟨⟨0, by omega⟩, EReal.coe_le_coe_iff.mpr h1, ?_, ?_⟩
    · intro j hj
      have hj0 : j.val < 0 := Fin.lt_def.mp hj
      omega
    · rw [severityAlpha_thresholds, if_pos h1]; rfl
  · by_cases h2 : RBR ≤ 0.27
    · refine ⟨⟨1, by omega⟩, EReal.coe_le_coe_iff.mpr h2, ?_, ?_⟩
      · intro j hj
        rcases j with ⟨jv, hjv⟩
        have hjlt : jv < 1 := Fin.lt_def.mp hj
        interval_cases jv
        · exact fun hc => h1 (EReal.coe_le_coe_iff.mp hc)
      · rw [severityAlpha_thresholds, if_neg h1, if_pos h2]; rfl
    · by_cases h3 : RBR ≤ 0.44
      · refine ⟨⟨2, by omega⟩, EReal.coe_le_coe_iff.mpr h3, ?_, ?_⟩
        · intro j hj
          rcases j with ⟨jv, hjv⟩
          have hjlt : jv < 2 := Fin.lt_def.mp hj
          interval_cases jv
          · exact fun hc => h1 (EReal.coe_le_coe_iff.mp hc)
          · exact fun hc => h2 (EReal.coe_le_coe_iff.mp hc)
        · rw [severityAlpha_thresholds, if_neg h1, if_neg h2, if_pos h3]; rfl
      · by_cases h4 : RBR ≤ 0.66
        · refine ⟨⟨3, by omega⟩, EReal.coe_le_coe_iff.mpr h4, ?_, ?_⟩
          · intro j hj
            rcases j with ⟨jv, hjv⟩
            have hjlt : jv < 3 := Fin.lt_def.mp hj
            interval_cases jv
            · exact fun hc => h1 (EReal.coe_le_coe_iff.mp hc)
            · exact fun hc => h2 (EReal.coe_le_coe_iff.mp hc)
            · exact fun hc => h3 (EReal.coe_le_coe_iff.mp hc)
          · rw [severityAlpha_thresholds, if_neg h1, if_neg h2, if_neg h3, if_pos h4]; rfl
        · refine ⟨⟨4, by omega⟩, le_top, ?_, ?_⟩
          · intro j hj
            rcases j with ⟨jv, hjv⟩
            have hjlt : jv < 4 := Fin.lt_def.mp hj
            interval_cases jv
            · exact fun hc => h1 (EReal.coe_le_coe_iff.mp hc)
            · exact fun hc => h2 (EReal.coe_le_coe_iff.mp hc)
            · exact fun hc => h3 (EReal.coe_le_coe_iff.mp hc)
            · exact fun hc => h4 (EReal.coe_le_coe_iff.mp hc)
          · rw [severityAlpha_thresholds, if_neg h1, if_neg h2, if_neg h3, if_neg h4]; rfl

theorem first_match_unique {α : Type} [LinearOrder α] {P : α → Prop} {i i' : α}
    (hPi : P i) (hmin : ∀ j, j < i → ¬P j)
    (hPi' : P i') (hmin' : ∀ j, j < i' → ¬P j) : i' = i := by
  rcases lt_trichotomy i' i with h | h | h
  · exact absurd hPi' (hmin _ h)
  · exact h
  · exact absurd hPi (hmin' _ h)

theorem sorted_head_le {l : List Orbit} (hs : List.Sorted orbitLE l) (hne : l ≠ [])
    {a : Orbit} (ha : a ∈ l) : orbitLE (l.head hne) a := by
  match l with
  | x :: xs =>
    rw [List.head_cons]
    rcases List.mem_cons.mp ha with rfl | ha'
    · exact le_refl a.dateFrom
    · exact List.rel_of_sorted_cons hs a ha'

theorem sorted_le_getLast :
    ∀ {l : List Orbit}, List.Sorted orbitLE l → ∀ (hne : l ≠ []) {a : Orbit},
      a ∈ l → orbitLE a (l.getLast hne)
  | [x], _, _, a, ha => by
    rcases List.mem_singleton.mp ha with rfl
    exact le_refl a.dateFrom
  | x :: y :: xs, hs, _, a, ha => by
    have hxs : (y :: xs) ≠ [] := List.cons_ne_nil y xs
    rw [List.getLast_cons hxs]
    rcases List.mem_cons.mp ha with rfl | ha'
    · exact List.rel_of_sorted_cons hs _ (List.getLast_mem hxs)
    · exact sorted_le_getLast (List.Sorted.of_cons hs) hxs ha'

/-- The orbit dated January `d`, 2025 (both `dateFrom` and `dateTo`), as
epoch milliseconds. -/
def exampleOrbit (d : ℤ) : Orbit :=
  ⟨1735689600000 + (d - 1) * 86400000, 1735689600000 + (d - 1) * 86400000⟩

/-- The spec's Scene Selector example catalog: orbits dated January 2, 5, 10
and 20, 2025. -/
def exampleCollections : Collections :=
  ⟨⟨[exampleOrbit 2, exampleOrbit 5, exampleOrbit 10, exampleOrbit 20]⟩⟩

theorem preProcessScenes_insufficient {c : Collections}
    (h : (retainedScenes c).length < 2) :
    preProcessScenes c = (none, ⟨⟨List.insertionSort orbitLE (retainedScenes c)⟩⟩) := by
  unfold preProcessScenes
  rw [dif_neg]
  rw [List.length_insertionSort]
  omega

theorem preProcessScenes_select {c : Collections}
    (h : 2 ≤ (retainedScenes c).length) :
    ∃ a b, preProcessScenes c = (some ⟨⟨[a, b]⟩⟩, ⟨⟨[a, b]⟩⟩) ∧
      a ∈ retainedScenes c ∧ b ∈ retainedScenes c ∧
      ∀ o ∈ retainedScenes c, a.dateFrom ≤ o.dateFrom ∧ o.dateFrom ≤ b.dateFrom := by
  have hlen : (List.insertionSort orbitLE (retainedScenes c)).length =
      (retainedScenes c).length := List.length_insertionSort orbitLE _
  have h2 : 2 ≤ (List.insertionSort orbitLE (retainedScenes c)).length := by omega
  have hne : List.insertionSort orbitLE (retainedScenes c) ≠ [] :=
    List.ne_nil_of_length_pos (by omega)
  have hperm : List.Perm (List.insertionSort orbitLE (retainedScenes c)) (retainedScenes c) :=
    List.perm_insertionSort orbitLE _
  have hsort : List.Sorted orbitLE (List.insertionSort orbitLE (retainedScenes c)) :=
    List.sorted_insertionSort orbitLE _
  refine ⟨_, _, ?_, hperm.subset (List.head_mem hne), hperm.subset (List.getLast_mem hne), ?_⟩
  · unfold preProcessScenes
    rw [dif_pos h2]
  · intro o ho
    have ho' : o ∈ List.insertionSort orbitLE (retainedScenes c) := hperm.mem_iff.mpr ho
    exact ⟨sorted_head_le hsort hne ho', sorted_le_getLast hsort hne ho'⟩

theorem range_filter_map_sum (p : ℕ → Prop) [DecidablePred p] (f : ℕ → ℝ) :
    ∀ n : ℕ, (((List.range n).filter fun j => decide (p j)).map f).sum =
      ∑ j ∈ (Finset.range n).filter p, f j
  | 0 => by simp
  | n + 1 => by
    rw [List.range_succ, List.filter_append, List.map_append, List.sum_append,
      Finset.range_succ, Finset.filter_insert]
    by_cases hp : p n
    · rw [if_pos hp, Finset.sum_insert (by simp), range_filter_map_sum p f n]
      simp [hp]
      ring
    · rw [if_neg hp, range_filter_map_sum p f n]
      simp [hp]

theorem range_filter_length (p : ℕ → Prop) [DecidablePred p] :
    ∀ n : ℕ, ((List.range n).filter fun j => decide (p j)).length =
      ((Finset.range n).filter p).card
  | 0 => by simp
  | n + 1 => by
    rw [List.range_succ, List.filter_append, List.length_append,
      Finset.range_succ, Finset.filter_insert]
    by_cases hp : p n
    · rw [if_pos hp, Finset.card_insert_of_not_mem (by simp), range_filter_length p n]
      simp [hp]
    · rw [if_neg hp, range_filter_length p n]
      simp [hp]

theorem window_finset (n i h : ℕ) (hi : i < n) :
    (Finset.range n).filter (fun j => i ≤ j + h ∧ j ≤ i + h) =
      Finset.Icc (i - h) (min (n - 1) (i + h)) := by
  ext j
  simp only [Finset.mem_filter, Finset.mem_range, Finset.mem_Icc]
  omega

theorem smoothData_length (dataset : List ℝ) (w : ℕ) :
    (smoothData dataset w).length = dataset.length := by
  simp [smoothData]

theorem smoothData_getD (dataset : List ℝ) (w : ℕ) {i : ℕ} (hi : i < dataset.length) :
    (smoothData dataset w).getD i 0 =
      ((windowIndices dataset.length i (w / 2)).map fun j => dataset.getD j 0).sum /
        ((windowIndices dataset.length i (w / 2)).length : ℝ) := by
  unfold smoothData
  rw [List.getD_eq_getElem?_getD, List.getElem?_map, List.getElem?_range hi]
  rfl

theorem smoothData_mean (dataset : List ℝ) (w : ℕ) {i : ℕ} (hi : i < dataset.length) :
    (smoothData dataset w).getD i 0 =
      (∑ j ∈ Finset.Icc (i - w / 2) (min (dataset.length - 1) (i + w / 2)),
        dataset.getD j 0) /
      ((Finset.Icc (i - w / 2) (min (dataset.length - 1) (i + w / 2))).card : ℝ) := by
  rw [smoothData_getD dataset w hi]
  unfold windowIndices
  rw [range_filter_map_sum (fun j => i ≤ j + w / 2 ∧ j ≤ i + w / 2)
      (fun j => dataset.getD j 0) dataset.length,
    range_filter_length (fun j => i ≤ j + w / 2 ∧ j ≤ i + w / 2) dataset.length,
    window_finset dataset.length i (w / 2) hi]

/-! ## Claims -/

/-- C1: on the spec's worked example (pre-fire `NIR=0.5, SWIR=0.1`, post-fire
`NIR=0.2, SWIR=0.3`, both samples non-excluded), the pre-index is `2/3 ≈
0.667`, the post-index is `-0.2`, the delta is `13/15 ≈ 0.867`, the RBR is
`(13/15)/sqrt(2/3) ≈ 1.062` (between 1.06 and 1.063), and `evaluatePixel`
returns `(255, 0, 0, 1.0)`. -/
theorem C1_worked_example :
    calculateNBR 0.5 0.1 = 2 / 3 ∧
    calculateNBR 0.2 0.3 = -0.2 ∧
    calculateNBR 0.5 0.1 - calculateNBR 0.2 0.3 = 13 / 15 ∧
    calculateRBR (13 / 15) (2 / 3) = 13 / 15 / Real.sqrt (2 / 3) ∧
    (1.06 < calculateRBR (13 / 15) (2 / 3) ∧ calculateRBR (13 / 15) (2 / 3) < 1.063) ∧
    evaluatePixel [⟨0.5, 0.1, 4, 1⟩, ⟨0.2, 0.3, 5, 1⟩] = (255, 0, 0, 1) :=
  ⟨calculateNBR_pre, calculateNBR_post,
   by rw [calculateNBR_pre, calculateNBR_post]; norm_num,
   exampleRBR_eq, exampleRBR_bounds, examplePixel_eq⟩

/-- C2: a sample count other than 2 yields `(0,0,0,0)`, and with exactly two
samples an excluded SCL code on either sample yields `(0,0,0,0)` for all band
values (no index arithmetic affects the result). -/
theorem C2_invalid_or_excluded_transparent :
    (∀ samples : List Sample, samples.length ≠ 2 →
      evaluatePixel samples = (0, 0, 0, 0)) ∧
    (∀ a b : Sample, a.SCL ∈ excludedClasses ∨ b.SCL ∈ excludedClasses →
      evaluatePixel [a, b] = (0, 0, 0, 0)) := by
  refine ⟨fun samples h => evaluatePixel_of_length_ne_two h, fun a b h => ?_⟩
  apply evaluatePixel_excluded
  rw [Bool.or_eq_true]
  rcases h with h | h
  · exact Or.inl (List.elem_eq_true_of_mem h)
  · exact Or.inr (List.elem_eq_true_of_mem h)

theorem C2_witness :
    evaluatePixel [] = (0, 0, 0, 0) ∧
    evaluatePixel [⟨0.5, 0.1, 3, 1⟩, ⟨0.2, 0.3, 4, 1⟩] = (0, 0, 0, 0) :=
  ⟨C2_invalid_or_excluded_transparent.1 [] (by decide),
   C2_invalid_or_excluded_transparent.2 _ _ (Or.inl (by decide))⟩

/-- C3 (as stated, refuted): at the worked-example input, the pipeline's
output does not match the spec's post-minus-pre relativized index
`(postIndex - preIndex) / sqrt |preIndex|`; the code feeds the color/alpha
stages a relativized index of the opposite sign. -/
theorem C3_counterexample :
    evaluatePixel [⟨0.5, 0.1, 4, 1⟩, ⟨0.2, 0.3, 5, 1⟩] ≠
      outputForRBR (specRelativized ⟨0.5, 0.1, 4, 1⟩ ⟨0.2, 0.3, 5, 1⟩) := by
  have hspec : specRelativized (⟨0.5, 0.1, 4, 1⟩ : Sample) (⟨0.2, 0.3, 5, 1⟩ : Sample) =
      calculateRBR (-(13 / 15)) (2 / 3) := by
    show calculateRBR (calculateNBR 0.2 0.3 - calculateNBR 0.5 0.1)
      (calculateNBR 0.5 0.1) = _
    rw [calculateNBR_pre, calculateNBR_post,
      show (-0.2 : ℝ) - 2 / 3 = -(13 / 15) by norm_num]
  have hneg : calculateRBR (-(13 / 15)) (2 / 3) < 0 := by
    unfold calculateRBR
    apply div_neg_of_neg_of_pos (by norm_num)
    rw [abs_of_pos (by norm_num : (0 : ℝ) < 2 / 3)]
    exact sqrt_two_thirds_pos
  intro h
  rw [examplePixel_eq, hspec] at h
  have hfst := congrArg Prod.fst h
  simp only [outputForRBR, getHeatmapColor] at hfst
  rw [clamp_round_eq_zero (by nlinarith)] at hfst
  exact absurd hfst (by norm_num)

/-- C3 (amended): for every pixel evaluation that reaches the relativization
step, the delta passed to `calculateRBR` is the PRE-minus-POST index
difference and the baseline is the pre-event index, so the relativized index
fed to the color/alpha stages is `(preIndex - postIndex) / sqrt |preIndex|`. -/
theorem C3_relativizer_call (a b : Sample)
    (h : (excludedClasses.contains a.SCL || excludedClasses.contains b.SCL) = false) :
    evaluatePixel [a, b] =
      outputForRBR (calculateRBR
        (calculateNBR a.B08 a.B12 - calculateNBR b.B08 b.B12)
        (calculateNBR a.B08 a.B12)) :=
  evaluatePixel_not_excluded h

theorem C3_witness :
    evaluatePixel [(⟨0.5, 0.1, 4, 1⟩ : Sample), ⟨0.2, 0.3, 5, 1⟩] =
      outputForRBR (calculateRBR
        (calculateNBR 0.5 0.1 - calculateNBR 0.2 0.3) (calculateNBR 0.5 0.1)) :=
  C3_relativizer_call ⟨0.5, 0.1, 4, 1⟩ ⟨0.2, 0.3, 5, 1⟩ (by decide)

/-- C4: the severity classifier scans the fixed threshold table in order and
returns the alpha of the first row whose `max` is `≥ RBR`; that first
matching row exists and is unique for every real `RBR` (the last row's `max`
is `+∞`), and a scan in which no row matches leaves the default alpha `0.0`. -/
theorem C4_classifier_first_match :
    (∀ RBR : ℝ, ∃ i : Fin thresholds.length,
      ((RBR : EReal) ≤ (thresholds.get i).max) ∧
      (∀ j : Fin thresholds.length, j < i → ¬((RBR : EReal) ≤ (thresholds.get j).max)) ∧
      severityAlpha RBR thresholds = (thresholds.get i).alpha ∧
      (∀ i' : Fin thresholds.length,
        ((RBR : EReal) ≤ (thresholds.get i').max) →
        (∀ j : Fin thresholds.length, j < i' → ¬((RBR : EReal) ≤ (thresholds.get j).max)) →
        i' = i)) ∧
    (∀ RBR : ℝ, ∀ l : List Threshold,
      (∀ t ∈ l, ¬((RBR : EReal) ≤ t.max)) → severityAlpha RBR l = 0) := by
  constructor
  · intro RBR
    obtain ⟨i, h1, h2, h3⟩ := severityAlpha_first_match RBR
    exact ⟨i, h1, h2, h3, fun i' hi' hmin' => first_match_unique h1 h2 hi' hmin'⟩
  · exact severityAlpha_of_no_match

theorem C4_witness : severityAlpha 0 [] = 0 :=
  C4_classifier_first_match.2 0 [] (by simp)

/-- C5: the Scene Selector retains exactly the in-window scenes, signals
"insufficient data" (empty result) when fewer than two remain, and otherwise
selects exactly the retained scene with the earliest `dateFrom` and the one
with the latest `dateFrom`; on the catalog dated [Jan 2, Jan 5, Jan 10,
Jan 20] with window [Jan 1, Jan 13], it retains [Jan 2, Jan 5, Jan 10] and
selects [Jan 2, Jan 10]. -/
theorem C5_scene_selector :
    (∀ c : Collections, (retainedScenes c).length < 2 →
      (preProcessScenes c).1 = none) ∧
    (∀ c : Collections, 2 ≤ (retainedScenes c).length →
      ∃ a b, (preProcessScenes c).1 = some ⟨⟨[a, b]⟩⟩ ∧
        a ∈ retainedScenes c ∧ b ∈ retainedScenes c ∧
        ∀ o ∈ retainedScenes c, a.dateFrom ≤ o.dateFrom ∧ o.dateFrom ≤ b.dateFrom) ∧
    retainedScenes exampleCollections =
      [exampleOrbit 2, exampleOrbit 5, exampleOrbit 10] ∧
    (preProcessScenes exampleCollections).1 =
      some ⟨⟨[exampleOrbit 2, exampleOrbit 10]⟩⟩ := by
  refine ⟨fun c h => ?_, fun c h => ?_, by decide, by decide⟩
  · rw [preProcessScenes_insufficient h]
  · obtain ⟨a, b, heq, ha, hb, hmin⟩ := preProcessScenes_select h
    exact ⟨a, b, by rw [heq], ha, hb, hmin⟩

theorem C5_witness : (preProcessScenes ⟨⟨[exampleOrbit 2]⟩⟩).1 = none :=
  C5_scene_selector.1 ⟨⟨[exampleOrbit 2]⟩⟩ (by decide)

/-- C8 (as stated, refuted): `preProcessScenes` does not leave its input
unchanged; on a catalog holding one out-of-window orbit, the insufficient-data
path still overwrites `collections.scenes.orbits` with the (empty) filtered
list. -/
theorem C8_counterexample :
    (preProcessScenes ⟨⟨[⟨0, 0⟩]⟩⟩).2 ≠ ⟨⟨[⟨0, 0⟩]⟩⟩ := by decide

/-- C8 (amended): `preProcessScenes` is deterministic but mutates its input:
after the call, `collections.scenes.orbits` holds only retained scenes (each
is one of the original orbits and lies inside the analysis window), sorted
ascending by `dateFrom` — also on the insufficient-data path — and on the
success path the returned object is exactly the mutated input object. -/
theorem C8_mutation_characterized (c : Collections) :
    List.Sorted orbitLE ((preProcessScenes c).2).scenes.orbits ∧
    (∀ o ∈ ((preProcessScenes c).2).scenes.orbits,
      o ∈ c.scenes.orbits ∧ fromDate ≤ o.dateFrom ∧ o.dateTo ≤ toDate) ∧
    (∀ x, (preProcessScenes c).1 = some x → x = (preProcessScenes c).2) := by
  have hperm : List.Perm (List.insertionSort orbitLE (retainedScenes c)) (retainedScenes c) :=
    List.perm_insertionSort orbitLE _
  have hsort : List.Sorted orbitLE (List.insertionSort orbitLE (retainedScenes c)) :=
    List.sorted_insertionSort orbitLE _
  have hmem : ∀ o ∈ List.insertionSort orbitLE (retainedScenes c),
      o ∈ c.scenes.orbits ∧ fromDate ≤ o.dateFrom ∧ o.dateTo ≤ toDate := by
    intro o ho
    have ho' : o ∈ retainedScenes c := hperm.subset ho
    obtain ⟨hmemo, hdec⟩ := List.mem_filter.mp ho'
    exact ⟨hmemo, of_decide_eq_true hdec⟩
  by_cases h : 2 ≤ (retainedScenes c).length
  · obtain ⟨a, b, heq, -, -, -⟩ := preProcessScenes_select h
    have hlen : (List.insertionSort orbitLE (retainedScenes c)).length =
        (retainedScenes c).length := List.length_insertionSort orbitLE _
    have hne : List.insertionSort orbitLE (retainedScenes c) ≠ [] :=
      List.ne_nil_of_length_pos (by omega)
    have hhead : (List.insertionSort orbitLE (retainedScenes c)).head hne ∈
        List.insertionSort orbitLE (retainedScenes c) := List.head_mem hne
    have hlast : (List.insertionSort orbitLE (retainedScenes c)).getLast hne ∈
        List.insertionSort orbitLE (retainedScenes c) := List.getLast_mem hne
    have hab : preProcessScenes c =
        (some ⟨⟨[(List.insertionSort orbitLE (retainedScenes c)).head hne,
                 (List.insertionSort orbitLE (retainedScenes c)).getLast hne]⟩⟩,
         ⟨⟨[(List.insertionSort orbitLE (retainedScenes c)).head hne,
            (List.insertionSort orbitLE (retainedScenes c)).getLast hne]⟩⟩) := by
      unfold preProcessScenes
      rw [dif_pos (by omega)]
    rw [hab]
    refine ⟨?_, ?_, ?_⟩
    · exact List.sorted_cons.mpr ⟨by
        intro o ho
        rcases List.mem_singleton.mp ho with rfl
        exact sorted_le_getLast hsort hne hhead,
        List.sorted_singleton _⟩
    · intro o ho
      rcases List.mem_cons.mp ho with rfl | ho'
      · exact hmem _ hhead
      · rcases List.mem_singleton.mp ho' with rfl
        exact hmem _ hlast
    · intro x hx
      simp only [Option.some.injEq] at hx
      simp [hx]
  · rw [preProcessScenes_insufficient (by omega)]
    exact ⟨hsort, hmem, fun x hx => by simp at hx⟩

theorem C8_witness :
    (⟨⟨[exampleOrbit 2, exampleOrbit 10]⟩⟩ : Collections) =
      (preProcessScenes exampleCollections).2 :=
  (C8_mutation_characterized exampleCollections).2.2 _ (by decide)

/-- In the idealized total-division semantics of this model, every pixel has
integer color channels in `[0, 255]` and alpha in `[0, 1]`. This isolates the
range property's only failure mode in the JS program: the zero-denominator
paths, on which JS arithmetic leaves the reals (see `C6_failing_input`). -/
theorem evaluatePixel_ranges_idealized (samples : List Sample) :
    0 ≤ (evaluatePixel samples).1 ∧ (evaluatePixel samples).1 ≤ 255 ∧
    0 ≤ (evaluatePixel samples).2.1 ∧ (evaluatePixel samples).2.1 ≤ 255 ∧
    0 ≤ (evaluatePixel samples).2.2.1 ∧ (evaluatePixel samples).2.2.1 ≤ 255 ∧
    0 ≤ (evaluatePixel samples).2.2.2 ∧ (evaluatePixel samples).2.2.2 ≤ 1 := by
  by_cases hlen : samples.length = 2
  · obtain ⟨a, b, rfl⟩ := List.length_eq_two.mp hlen
    by_cases hexc : (excludedClasses.contains a.SCL || excludedClasses.contains b.SCL) = true
    · rw [evaluatePixel_excluded hexc]; norm_num
    · rw [evaluatePixel_not_excluded (by simpa using hexc)]
      exact outputForRBR_ranges _
  · rw [evaluatePixel_of_length_ne_two hlen]; norm_num

/-- C6 (code bug at the degenerate-denominator input): with two non-excluded
samples whose reflectances are all zero, the JS program computes
`NBR = (0-0)/(0+0) = NaN` for both samples; the NaN propagates through
smoothing, `dNBR`, `RBR` and `Math.round`/`Math.max`/`Math.min`, so
`evaluatePixel` returns `[NaN, NaN, 0, 0]` — the red and green channels are
not integers in `[0, 255]`, violating the claimed range invariant. This
real-valued model cannot express NaN: its total division (`0 / 0 = 0`) turns
the same input into `RBR = 0`, and the pixel evaluates to `(0, 255, 0, 0)`
(in range). The theorem records that model evaluation at the failing input;
the range violation itself is a float artifact of the unguarded
division-by-zero path in the source. -/
theorem C6_failing_input :
    evaluatePixel [⟨0, 0, 4, 1⟩, ⟨0, 0, 5, 1⟩] = (0, 255, 0, 0) := by
  rw [evaluatePixel_not_excluded (by decide)]
  have hz : calculateNBR 0 0 = 0 := by unfold calculateNBR; norm_num
  rw [hz]
  have hz2 : calculateRBR (0 - 0) 0 = 0 := by
    unfold calculateRBR
    norm_num
  rw [hz2]
  unfold outputForRBR getHeatmapColor
  rw [clamp_round_eq_zero (by norm_num), clamp_round_eq_255 (by norm_num),
    severityAlpha_thresholds, if_pos (by norm_num : (0 : ℝ) ≤ 0.1)]
  unfold adjustTransparency
  norm_num

/-- C7: `smoothData` preserves length; its `i`-th output is the arithmetic
mean of the input elements at positions within `± floor(w/2)` of `i` that lie
inside the sequence bounds (truncated at boundaries, no wraparound/padding);
`smoothData [1,2,3,4,5] 3 = [1.5, 2, 3, 4, 4.5]`, and any single-element
sequence is returned unchanged. -/
theorem C7_smoother :
    (∀ (dataset : List ℝ) (w : ℕ), Odd w →
      (smoothData dataset w).length = dataset.length ∧
      ∀ i, i < dataset.length →
        (smoothData dataset w).getD i 0 =
          (∑ j ∈ Finset.Icc (i - w / 2) (min (dataset.length - 1) (i + w / 2)),
            dataset.getD j 0) /
          ((Finset.Icc (i - w / 2) (min (dataset.length - 1) (i + w / 2))).card : ℝ)) ∧
    smoothData [1, 2, 3, 4, 5] 3 = [1.5, 2, 3, 4, 4.5] ∧
    (∀ (x : ℝ) (w : ℕ), Odd w → smoothData [x] w = [x]) := by
  refine ⟨fun dataset w _ =>
    ⟨smoothData_length dataset w, fun i hi => smoothData_mean dataset w hi⟩,
    ?_, fun x w _ => smoothData_singleton x w⟩
  have hr : List.range 5 = [0, 1, 2, 3, 4] := rfl
  have h0 : windowIndices 5 0 1 = [0, 1] := rfl
  have h1 : windowIndices 5 1 1 = [0, 1, 2] := rfl
  have h2 : windowIndices 5 2 1 = [1, 2, 3] := rfl
  have h3 : windowIndices 5 3 1 = [2, 3, 4] := rfl
  have h4 : windowIndices 5 4 1 = [3, 4] := rfl
  simp only [smoothData, List.length_cons, List.length_nil]
  norm_num [hr, h0, h1, h2, h3, h4]

theorem C7_witness : smoothData [(1 : ℝ)] 3 = [1] :=
  C7_smoother.2.2 1 3 ⟨1, by norm_num⟩

/-- C9: the alpha adjustment is `a ↦ a^2`, monotonically non-decreasing on
`[0, 1]`, with `adjust 0 = 0`, `adjust 1 = 1`, `adjust 0.5 = 0.25`. -/
theorem C9_alpha_adjustment :
    (∀ a : ℝ, adjustTransparency a = a ^ 2) ∧
    (∀ a b : ℝ, 0 ≤ a → a ≤ b → b ≤ 1 →
      adjustTransparency a ≤ adjustTransparency b) ∧
    adjustTransparency 0 = 0 ∧ adjustTransparency 1 = 1 ∧
    adjustTransparency 0.5 = 0.25 := by
  refine ⟨fun a => rfl, fun a b ha hab _ => pow_le_pow_left₀ ha hab 2, ?_, ?_, ?_⟩ <;>
    (unfold adjustTransparency; norm_num)

theorem C9_witness : adjustTransparency 0 ≤ adjustTransparency 1 :=
  C9_alpha_adjustment.2.1 0 1 le_rfl (by norm_num) le_rfl

/-- C10: `evaluatePixel` never reads `dataMask`; two sample lists agreeing on
length and on every `B08`, `B12` and `SCL` value produce identical outputs. -/
theorem C10_dataMask_independent (s t : List Sample)
    (h : s.map sampleObs = t.map sampleObs) :
    evaluatePixel s = evaluatePixel t := by
  have hlen : s.length = t.length := by
    have h2 := congrArg List.length h
    simpa using h2
  by_cases h2 : s.length = 2
  · obtain ⟨a, b, rfl⟩ := List.length_eq_two.mp h2
    obtain ⟨c, d, rfl⟩ := List.length_eq_two.mp (hlen ▸ h2)
    simp only [List.map_cons, List.map_nil, List.cons.injEq, and_true, sampleObs,
      Prod.mk.injEq] at h
    obtain ⟨⟨hB1, hB2, hS⟩, hB1', hB2', hS'⟩ := h
    simp only [evaluatePixel, hB1, hB2, hS, hB1', hB2', hS']
  · rw [evaluatePixel_of_length_ne_two h2,
      evaluatePixel_of_length_ne_two (hlen ▸ h2)]

theorem C10_witness :
    evaluatePixel [⟨0.5, 0.1, 4, 0⟩, ⟨0.2, 0.3, 5, 0⟩] =
      evaluatePixel [⟨0.5, 0.1, 4, 1⟩, ⟨0.2, 0.3, 5, 1⟩] :=
  C10_dataMask_independent _ _ rfl

end BurnSeverity
